import Mathlib

/-!
Shallow embedding of `src/ledaps/ledapsSrc/scripts/do_ledaps.py`
(class `Ledaps`, functions `isLeapYear`, `findAncillary`, `runLedaps`).

External effects (filesystem queries, environment variables, the current
time, and the status words returned by `commands.getstatusoutput`) are
modelled as fields of explicit environment structures; the functions are
then pure Lean functions over those environments.  The observable effects
of `runLedaps` (its return code, the final working directory, and the
ordered list of command strings handed to `commands.getstatusoutput`)
are collected in a result structure.
-/

namespace DoLedaps

/-- `ERROR = 1`, as in the script. -/
def ERROR : Nat := 1

/-- `SUCCESS = 0`, as in the script. -/
def SUCCESS : Nat := 0

/-- Embedding of `isLeapYear` (do_ledaps.py lines 27-37): nested
`%`-tests on 4, 100 and 400, mirroring the Python control flow. -/
def isLeapYear (year : Int) : Bool :=
  if year % 4 = 0 then
    if year % 100 = 0 then
      if year % 400 = 0 then true
      else false
    else true
  else false

/-- Environment seen by `findAncillary`: the optional `ANC_PATH`
environment variable, the current date (`datetime.datetime.now()`),
exposed as its year and its ordinal day of year (`tm_yday`), and the
filesystem existence predicate `os.path.isfile`. -/
structure AncEnv where
  anc_path : Option String
  now_year : Int
  now_yday : Nat
  isfile : String → Bool

/-- DOY padding from do_ledaps.py lines 135-140: pad with `0`s when the
day value prints shorter than three characters, using the same
`< 10` / `9 < _ < 100` tests as the script. -/
def padDoy (currdoy : Int) : String :=
  if currdoy < 10 then "00" ++ toString currdoy
  else if 9 < currdoy ∧ currdoy < 100 then "0" ++ toString currdoy
  else toString currdoy

/-- The NCEP REANALYSIS path template of do_ledaps.py lines 143-144:
`%s/REANALYSIS/RE_%d/REANALYSIS_%d%s.hdf` applied to
`(ancdir, year, year, dayofyear)`. -/
def ncepFile (ancdir : String) (year : Int) (dayofyear : String) : String :=
  ancdir ++ "/REANALYSIS/RE_" ++ toString year ++ "/REANALYSIS_" ++
    toString year ++ dayofyear ++ ".hdf"

/-- The EP/TOMS path template of do_ledaps.py lines 147-148:
`%s/EP_TOMS/ozone_%d/TOMS_%d%s.hdf` applied to
`(ancdir, year, year, dayofyear)`. -/
def tomsFile (ancdir : String) (year : Int) (dayofyear : String) : String :=
  ancdir ++ "/EP_TOMS/ozone_" ++ toString year ++ "/TOMS_" ++
    toString year ++ dayofyear ++ ".hdf"

/-- One loop iteration of `findAncillary` (lines 129-152): resolve the
day to test (the literal `doy` argument when it is not the `-99`
sentinel, the running day otherwise), format both ancillary paths and
require both files to exist. -/
def ancAvail (env : AncEnv) (ancdir : String) (year currdoy : Int) : Bool :=
  env.isfile (ncepFile ancdir year (padDoy currdoy)) &&
    env.isfile (tomsFile ancdir year (padDoy currdoy))

/-- Embedding of `Ledaps.findAncillary` (do_ledaps.py lines 100-155).
The Python default argument is `doy=-99`; here `doy` is always passed
explicitly, `-99` playing the same sentinel role.  Returns `none` when
`ANC_PATH` is unset, otherwise one Boolean per evaluated day, in loop
order (`range(1, ndays+1)`). -/
def findAncillary (env : AncEnv) (year : Int) (doy : Int) : Option (List Bool) :=
  match env.anc_path with
  | none => none
  | some ancdir =>
    let ndays : Nat :=
      if doy = -99 then
        if year = env.now_year then env.now_yday
        else if isLeapYear year then 366 else 365
      else 1
    some ((List.range ndays).map (fun (i : Nat) =>
      let currdoy : Int := if doy ≠ -99 then doy else (i : Int) + 1
      ancAvail env ancdir year currdoy))

/-! ### `runLedaps` embedding -/

/-- Environment seen by `runLedaps`: the working directory at entry
(`os.getcwd()`), the filesystem predicates `os.path.isfile` and
`os.access(·, os.W_OK)`, the directory resolution
`os.path.dirname(os.path.abspath(·))` (kept as an environment-supplied
map of the input path, since no claim depends on its internal string
arithmetic), and the status word that `commands.getstatusoutput`
returns for each command string. -/
structure RunEnv where
  cwd : String
  isfile : String → Bool
  writable : String → Bool
  xmldirOf : String → String
  status : String → Nat

/-- Observable outcome of one `runLedaps` call: the returned code, the
process working directory at return time, and the command strings
passed to `commands.getstatusoutput`, in invocation order. -/
structure RunResult where
  ret : Nat
  cwd : String
  cmds : List String
deriving Repr, DecidableEq

/-- `os.path.basename` on a POSIX path: the part after the last `/`
(the whole string when there is no `/`). -/
def basename (p : String) : String :=
  String.mk ((p.data.reverse.takeWhile (fun c => c ≠ '/')).reverse)

/-- `re.sub('\\.xml$', '', s)` (line 225): remove one trailing `.xml`
occurrence when present. -/
def stripXmlSuffix (s : String) : String :=
  if s.data.drop (s.data.length - 4) = ".xml".data then
    String.mk (s.data.take (s.data.length - 4))
  else s

/-- Python slicing `s[0:n]` by code points, for the classification tests
`base_xmlfile[0:3]` and `base_xmlfile[0:4]`. -/
def strTake (s : String) (n : Nat) : String :=
  String.mk (s.data.take n)

/-- `prefixes_old = ['LT4', 'LT5', 'LE7']` (line 246). -/
def oldNames : List String := ["LT4", "LT5", "LE7"]

/-- `prefixes_collection = ['LT04', 'LT05', 'LE07']` (line 247). -/
def collectionNames : List String := ["LT04", "LT05", "LE07"]

/-- Outcome of the naming-convention dispatch of lines 248-261. -/
inductive SceneClass where
  | preCollection
  | collection
  | unrecognized
deriving DecidableEq, Repr

/-- The if/elif/else of lines 248-261: first three characters against
`prefixes_old`, then first four against `prefixes_collection`,
otherwise unrecognized. -/
def classifyScene (base_xmlfile : String) : SceneClass :=
  if strTake base_xmlfile 3 ∈ oldNames then SceneClass.preCollection
  else if strTake base_xmlfile 4 ∈ collectionNames then SceneClass.collection
  else SceneClass.unrecognized

/-- `process_collection_opt_str` (lines 266-268): `--process_collection`
for collection scenes, the empty string otherwise. -/
def process_collection_opt_str (processing_collection : Bool) : String :=
  if processing_collection then "--process_collection" else ""

/-- `process_sr_opt_str` (lines 283-286): the literal comparison with
the string `"True"`. -/
def process_sr_opt_str (process_sr : String) : String :=
  if process_sr = "True" then "--process_sr=true" else "--process_sr=false"

/-- `"create_landsat_angle_bands --xml %s" % base_xmlfile` (line 270). -/
def angleCmd (base_xmlfile : String) : String :=
  "create_landsat_angle_bands --xml " ++ base_xmlfile

/-- `"lndpm --xml %s %s" % (base_xmlfile, process_sr_opt_str)` (line 290). -/
def lndpmCmd (base_xmlfile process_sr : String) : String :=
  "lndpm --xml " ++ base_xmlfile ++ " " ++ process_sr_opt_str process_sr

/-- `"lndcal --pfile lndcal.%s.txt %s" % (xml, process_collection_opt_str)`
(line 300). -/
def lndcalCmd (xml pcos : String) : String :=
  "lndcal --pfile lndcal." ++ xml ++ ".txt " ++ pcos

/-- `"lndsr --pfile lndsr.%s.txt %s" % (xml, process_collection_opt_str)`
(line 312). -/
def lndsrCmd (xml pcos : String) : String :=
  "lndsr --pfile lndsr." ++ xml ++ ".txt " ++ pcos

/-- `"lndsrbm.py -f lndsr.%s.txt" % xml` (line 325). -/
def lndsrbmCmd (xml : String) : String :=
  "lndsrbm.py -f lndsr." ++ xml ++ ".txt"

/-- `exit_code = status >> 8` (lines 274, 294, 305, 317, 329). -/
def exitCode (status : Nat) : Nat := status >>> 8

/-- The stage pipeline of do_ledaps.py lines 263-339, entered after the
`os.chdir(xmldir)` of line 243 with the classification already made.
Each stage mirrors the script block: build the command string, obtain
its status word, derive `exit_code = status >> 8`, and on a non-zero
exit code `os.chdir(mydir)` and return `ERROR`; on completion
`os.chdir(mydir)` and return `SUCCESS`. -/
def runStages (env : RunEnv) (base_xmlfile xml mydir : String)
    (processing_collection : Bool) (process_sr : String) : RunResult :=
  if processing_collection ∧ exitCode (env.status (angleCmd base_xmlfile)) ≠ 0 then
    { ret := ERROR, cwd := mydir, cmds := [angleCmd base_xmlfile] }
  else
    let c0 : List String :=
      if processing_collection then [angleCmd base_xmlfile] else []
    if exitCode (env.status (lndpmCmd base_xmlfile process_sr)) ≠ 0 then
      { ret := ERROR, cwd := mydir, cmds := c0 ++ [lndpmCmd base_xmlfile process_sr] }
    else
      let pcos := process_collection_opt_str processing_collection
      if exitCode (env.status (lndcalCmd xml pcos)) ≠ 0 then
        { ret := ERROR, cwd := mydir,
          cmds := c0 ++ [lndpmCmd base_xmlfile process_sr, lndcalCmd xml pcos] }
      else
        if process_sr = "True" then
          if exitCode (env.status (lndsrCmd xml pcos)) ≠ 0 then
            { ret := ERROR, cwd := mydir,
              cmds := c0 ++ [lndpmCmd base_xmlfile process_sr, lndcalCmd xml pcos,
                             lndsrCmd xml pcos] }
          else
            if ¬ processing_collection then
              if exitCode (env.status (lndsrbmCmd xml)) ≠ 0 then
                { ret := ERROR, cwd := mydir,
                  cmds := c0 ++ [lndpmCmd base_xmlfile process_sr, lndcalCmd xml pcos,
                                 lndsrCmd xml pcos, lndsrbmCmd xml] }
              else
                { ret := SUCCESS, cwd := mydir,
                  cmds := c0 ++ [lndpmCmd base_xmlfile process_sr, lndcalCmd xml pcos,
                                 lndsrCmd xml pcos, lndsrbmCmd xml] }
            else
              { ret := SUCCESS, cwd := mydir,
                cmds := c0 ++ [lndpmCmd base_xmlfile process_sr, lndcalCmd xml pcos,
                               lndsrCmd xml pcos] }
        else
          { ret := SUCCESS, cwd := mydir,
            cmds := c0 ++ [lndpmCmd base_xmlfile process_sr, lndcalCmd xml pcos] }

/-- Embedding of `Ledaps.runLedaps` (do_ledaps.py lines 181-339) for an
explicitly supplied `xmlfile` (the command-line parsing branch of lines
184-209 is outside the claims).  The `cwd` field of the result tracks
the process working directory: unchanged on the two exits before
`os.chdir(xmldir)` (missing file, unwritable directory), and equal to
the re-instated `mydir` on every later exit. -/
def runLedaps (env : RunEnv) (xmlfile : String) (process_sr : String) : RunResult :=
  if ¬ env.isfile xmlfile then
    { ret := ERROR, cwd := env.cwd, cmds := [] }
  else
    let base_xmlfile := basename xmlfile
    let xml := stripXmlSuffix base_xmlfile
    let mydir := env.cwd
    let xmldir := env.xmldirOf xmlfile
    if ¬ env.writable xmldir then
      { ret := ERROR, cwd := env.cwd, cmds := [] }
    else
      match classifyScene base_xmlfile with
      | SceneClass.unrecognized =>
          { ret := ERROR, cwd := mydir, cmds := [] }
      | SceneClass.preCollection =>
          runStages env base_xmlfile xml mydir false process_sr
      | SceneClass.collection =>
          runStages env base_xmlfile xml mydir true process_sr

/-! ### Helper lemmas -/

/-- The resolved number of days scanned by `findAncillary`. -/
def ndaysOf (env : AncEnv) (year doy : Int) : Nat :=
  if doy = -99 then
    if year = env.now_year then env.now_yday
    else if isLeapYear year then 366 else 365
  else 1

lemma findAncillary_some (env : AncEnv) (year doy : Int) (a : String)
    (ha : env.anc_path = some a) :
    findAncillary env year doy =
      some ((List.range (ndaysOf env year doy)).map (fun (i : Nat) =>
        ancAvail env a year (if doy ≠ -99 then doy else (i : Int) + 1))) := by
  unfold findAncillary ndaysOf
  rw [ha]

lemma runStages_cwd (env : RunEnv) (b x mydir : String) (pc : Bool) (psr : String) :
    (runStages env b x mydir pc psr).cwd = mydir := by
  unfold runStages
  dsimp only
  repeat' split
  all_goals rfl

/-! ### Claims -/

/-- C1: on every exit path of `runLedaps` — the two exits taken before
`os.chdir(xmldir)`, the unrecognized-scene-name exit, every stage
failure, and the success exit — the working directory at return equals
the working directory that was current at entry. -/
theorem runLedaps_restores_cwd (env : RunEnv) (xmlfile process_sr : String) :
    (runLedaps env xmlfile process_sr).cwd = env.cwd := by
  unfold runLedaps
  dsimp only
  split
  · rfl
  · split
    · rfl
    · split
      · rfl
      · exact runStages_cwd ..
      · exact runStages_cwd ..

/-- C6: with `ANC_PATH` configured, `findAncillary` returns a list whose
length is exactly 1 when a day-of-year is given (regardless of year),
the current date's ordinal day number when no day is given and the year
is the current year, and otherwise 366 for Gregorian leap years and 365
for other years. -/
theorem findAncillary_length_spec (env : AncEnv) (year doy : Int) (a : String)
    (ha : env.anc_path = some a) :
    (∃ l, findAncillary env year doy = some l ∧ l.length = ndaysOf env year doy) ∧
    (doy ≠ -99 → ndaysOf env year doy = 1) ∧
    (doy = -99 → year = env.now_year → ndaysOf env year doy = env.now_yday) ∧
    (doy = -99 → year ≠ env.now_year →
       ndaysOf env year doy = if isLeapYear year then 366 else 365) ∧
    (isLeapYear year = true ↔ (year % 4 = 0 ∧ (year % 100 = 0 → year % 400 = 0))) := by
  refine ⟨⟨_, findAncillary_some env year doy a ha,
    by rw [List.length_map, List.length_range]⟩, ?_, ?_, ?_, ?_⟩
  · intro h; simp [ndaysOf, h]
  · intro h hy; simp [ndaysOf, h, hy]
  · intro h hy; simp [ndaysOf, h, hy]
  · unfold isLeapYear
    by_cases h4 : year % 4 = 0 <;> by_cases h100 : year % 100 = 0 <;>
      by_cases h400 : year % 400 = 0 <;> simp [h4, h100, h400]

/-- Fixed environment for concrete evaluations: `ANC_PATH=/anc`, the
current date in 2025 with ordinal day 285, no file present. -/
def ancEnvNone : AncEnv :=
  { anc_path := some "/anc", now_year := 2025, now_yday := 285,
    isfile := fun _ => false }

/-- Witness for C6 at `year = 2013`, `doy = -99`: a non-leap,
non-current year scans 365 days. -/
theorem findAncillary_length_spec_witness :
    ∃ l, findAncillary ancEnvNone 2013 (-99) = some l ∧ l.length = 365 := by
  have h := (findAncillary_length_spec ancEnvNone 2013 (-99) "/anc" rfl).1
  simpa [ndaysOf, ancEnvNone, isLeapYear] using h

/-- C9: `findAncillary` returns the sentinel `none` exactly when
`ANC_PATH` is not configured; whenever it is configured the result is a
full list of Booleans of the resolved length, for every year and
day-of-year input. -/
theorem findAncillary_missing_config (env : AncEnv) (year doy : Int) :
    (findAncillary env year doy = none ↔ env.anc_path = none) ∧
    (∀ a, env.anc_path = some a →
       ∃ l : List Bool, findAncillary env year doy = some l ∧
         l.length = ndaysOf env year doy) := by
  constructor
  · cases h : env.anc_path with
    | none => simp [findAncillary, h]
    | some a => rw [findAncillary_some env year doy a h]; simp
  · intro a ha
    exact ⟨_, findAncillary_some env year doy a ha,
      by rw [List.length_map, List.length_range]⟩

/-- Witness for C9 at the concrete configured environment. -/
theorem findAncillary_missing_config_witness :
    ∃ l : List Bool, findAncillary ancEnvNone 2013 7 = some l ∧
      l.length = ndaysOf ancEnvNone 2013 7 :=
  (findAncillary_missing_config ancEnvNone 2013 7).2 "/anc" rfl

/-- C10: `findAncillary` performs no range validation on `doy`: for any
integer other than the sentinel `-99` (including 0, 400 or negatives)
it returns a single-entry list built from that literal value, and
passing `-99` triggers exactly the full-year (or partial current-year)
scan used when the argument is omitted. -/
theorem findAncillary_doy_unvalidated (env : AncEnv) (year doy : Int) (a : String)
    (ha : env.anc_path = some a) :
    (doy ≠ -99 → findAncillary env year doy = some [ancAvail env a year doy]) ∧
    (findAncillary env year (-99) =
       some ((List.range (if year = env.now_year then env.now_yday
                          else if isLeapYear year then 366 else 365)).map
         (fun (i : Nat) => ancAvail env a year ((i : Int) + 1)))) := by
  constructor
  · intro h
    rw [findAncillary_some env year doy a ha]
    simp [ndaysOf, h, List.range_succ]
  · rw [findAncillary_some env year (-99) a ha]
    simp [ndaysOf]

/-- Witness for C10 at the out-of-range literal `doy = 400`. -/
theorem findAncillary_doy_unvalidated_witness :
    findAncillary ancEnvNone 2013 400 = some [ancAvail ancEnvNone "/anc" 2013 400] :=
  (findAncillary_doy_unvalidated ancEnvNone 2013 400 "/anc" rfl).1 (by decide)

/-- Modelled from the spec: a day-of-year written in decimal and
left-padded with `0`s to three digits (the `<ddd>` placeholder of the
ancillary path templates).  Comparison definition for the padding
performed by `findAncillary`. -/
def zeroPad3 (d : Int) : String :=
  String.mk (List.replicate (3 - (toString d).length) '0') ++ toString d

/-- C7: with `ANC_PATH` configured, entry `i` of the `findAncillary`
result (ascending day order, one entry per day, day `i + 1` when the
year is scanned, the literal `doy` otherwise) is `true` exactly when
both the REANALYSIS file and the EP/TOMS file for that day exist, the
day being zero-padded to three digits in both paths. -/
theorem findAncillary_entry_spec (env : AncEnv) (year doy : Int) (a : String)
    (l : List Bool) (ha : env.anc_path = some a)
    (hl : findAncillary env year doy = some l)
    (i : Nat) (hi : i < l.length) :
    l.get ⟨i, hi⟩ =
      (env.isfile (ncepFile a year (padDoy (if doy ≠ -99 then doy else (i : Int) + 1))) &&
       env.isfile (tomsFile a year (padDoy (if doy ≠ -99 then doy else (i : Int) + 1)))) ∧
    (∀ n : Nat, n < 367 → 1 ≤ n → padDoy (n : Int) = zeroPad3 (n : Int)) := by
  constructor
  · rw [findAncillary_some env year doy a ha] at hl
    have hleq : l = (List.range (ndaysOf env year doy)).map (fun (j : Nat) =>
        ancAvail env a year (if doy ≠ -99 then doy else (j : Int) + 1)) :=
      (Option.some.inj hl).symm
    subst hleq
    simp [List.get_eq_getElem, ancAvail]
  · set_option maxRecDepth 4000 in decide

/-- Environment in which every queried file exists. -/
def ancEnvAll : AncEnv :=
  { anc_path := some "/anc", now_year := 2025, now_yday := 285,
    isfile := fun _ => true }

/-- Witness for C7 at `year = 2013`, `doy = 45`, every file present. -/
theorem findAncillary_entry_spec_witness :
    ([true] : List Bool).get ⟨0, Nat.one_pos⟩ = true ∧
    (∀ n : Nat, n < 367 → 1 ≤ n → padDoy (n : Int) = zeroPad3 (n : Int)) := by
  have h := findAncillary_entry_spec ancEnvAll 2013 45 "/anc" [true] (by decide)
    (by decide) 0 Nat.one_pos
  simpa [ancEnvAll] using h

/-- Sequential early-exit execution of a list of planned commands:
stop with `ERROR` at the first non-zero derived exit code, recording
only the commands actually invoked. -/
def runPipe (env : RunEnv) (mydir : String) : List String → RunResult
  | [] => { ret := SUCCESS, cwd := mydir, cmds := [] }
  | c :: cs =>
      if exitCode (env.status c) ≠ 0 then
        { ret := ERROR, cwd := mydir, cmds := [c] }
      else
        let r := runPipe env mydir cs
        { ret := r.ret, cwd := r.cwd, cmds := c :: r.cmds }

/-- The stages applicable to a run: the angle-band stage for collection
scenes, then `lndpm` and `lndcal` always, then `lndsr` when SR is
requested, and `lndsrbm` when SR is requested and the scene is not a
collection scene. -/
def stagePlan (pc : Bool) (psr : String) (b x : String) : List String :=
  (if pc then [angleCmd b] else []) ++
  [lndpmCmd b psr, lndcalCmd x (process_collection_opt_str pc)] ++
  (if psr = "True" then
     lndsrCmd x (process_collection_opt_str pc) ::
       (if pc then [] else [lndsrbmCmd x])
   else [])

lemma runStages_eq_runPipe (env : RunEnv) (b x mydir : String) (pc : Bool) (psr : String) :
    runStages env b x mydir pc psr = runPipe env mydir (stagePlan pc psr b x) := by
  unfold runStages stagePlan
  dsimp only
  cases pc <;> by_cases hsr : psr = "True" <;>
    simp only [hsr, if_true, if_false, Bool.false_eq_true, Bool.true_eq_false, false_and,
      true_and, not_false_iff, not_true, List.nil_append, List.cons_append, List.append_nil,
      ite_true, ite_false, runPipe] <;>
    split_ifs <;> simp_all [runPipe]

lemma runPipe_cons_ok (env : RunEnv) (mydir : String) (c : String) (cs : List String)
    (hf : exitCode (env.status c) = 0) :
    runPipe env mydir (c :: cs) =
      { ret := (runPipe env mydir cs).ret, cwd := (runPipe env mydir cs).cwd,
        cmds := c :: (runPipe env mydir cs).cmds } := by
  rw [runPipe]
  simp [hf]

lemma runPipe_cons_fail (env : RunEnv) (mydir : String) (c : String) (cs : List String)
    (hf : exitCode (env.status c) ≠ 0) :
    runPipe env mydir (c :: cs) = { ret := ERROR, cwd := mydir, cmds := [c] } := by
  rw [runPipe]
  simp [hf]

lemma runPipe_dropLast_ok (env : RunEnv) (mydir : String) :
    ∀ cs : List String, ∀ c ∈ (runPipe env mydir cs).cmds.dropLast,
      exitCode (env.status c) = 0 := by
  intro cs
  induction cs with
  | nil => simp [runPipe]
  | cons c cs ih =>
      by_cases hf : exitCode (env.status c) = 0
      · rw [runPipe_cons_ok env mydir c cs hf]
        intro d hd
        rcases hx : (runPipe env mydir cs).cmds with _ | ⟨e, es⟩
        · rw [hx] at hd
          simp at hd
        · rw [hx] at hd
          simp only [List.dropLast_cons₂] at hd
          rcases List.mem_cons.mp hd with h | h
          · exact h ▸ hf
          · exact ih d (by rw [hx]; exact h)
      · rw [runPipe_cons_fail env mydir c cs hf]
        intro d hd
        simp at hd

lemma runPipe_error_of_fail (env : RunEnv) (mydir : String) :
    ∀ cs : List String,
      (∃ c ∈ (runPipe env mydir cs).cmds, exitCode (env.status c) ≠ 0) →
      (runPipe env mydir cs).ret = ERROR := by
  intro cs
  induction cs with
  | nil => simp [runPipe, SUCCESS, ERROR]
  | cons c cs ih =>
      by_cases hf : exitCode (env.status c) = 0
      · rw [runPipe_cons_ok env mydir c cs hf]
        rintro ⟨d, hd, hde⟩
        rcases List.mem_cons.mp hd with h | h
        · exact absurd (by rw [h]; exact hf) hde
        · exact ih ⟨d, h, hde⟩
      · rw [runPipe_cons_fail env mydir c cs hf]
        intro _
        rfl

lemma runPipe_success_all_ok (env : RunEnv) (mydir : String)
    (cs : List String) (h : (runPipe env mydir cs).ret = SUCCESS) :
    ∀ c ∈ (runPipe env mydir cs).cmds, exitCode (env.status c) = 0 := by
  intro c hc
  by_contra hne
  have herr := runPipe_error_of_fail env mydir cs ⟨c, hc, hne⟩
  rw [h] at herr
  exact absurd herr (by simp [ERROR, SUCCESS])

lemma runPipe_invoked_ok (env : RunEnv) (mydir : String) :
    ∀ cs : List String,
      (∀ c ∈ (runPipe env mydir cs).cmds, exitCode (env.status c) = 0) →
      runPipe env mydir cs = { ret := SUCCESS, cwd := mydir, cmds := cs } := by
  intro cs
  induction cs with
  | nil => intro _; rfl
  | cons c cs ih =>
      intro h
      have hc : exitCode (env.status c) = 0 := by
        by_cases hf : exitCode (env.status c) = 0
        · exact hf
        · refine absurd (h c ?_) hf
          rw [runPipe_cons_fail env mydir c cs hf]
          simp
      rw [runPipe_cons_ok env mydir c cs hc] at h ⊢
      have htail := ih (fun d hd => h d (by simp only [List.mem_cons]; right; exact hd))
      rw [htail]

/-- C2: a stage counts as failed exactly when `status >> 8` is non-zero,
and `runLedaps` stops at the first failure: every invoked command other
than the last had a zero derived exit code, any invoked command with a
non-zero derived exit code forces the `ERROR` return, and a `SUCCESS`
return means every invoked command had a zero derived exit code. -/
theorem runLedaps_first_failure_aborts (env : RunEnv) (xmlfile process_sr : String) :
    (∀ c ∈ (runLedaps env xmlfile process_sr).cmds.dropLast, exitCode (env.status c) = 0) ∧
    ((∃ c ∈ (runLedaps env xmlfile process_sr).cmds, exitCode (env.status c) ≠ 0) →
       (runLedaps env xmlfile process_sr).ret = ERROR) ∧
    ((runLedaps env xmlfile process_sr).ret = SUCCESS →
       ∀ c ∈ (runLedaps env xmlfile process_sr).cmds, exitCode (env.status c) = 0) := by
  unfold runLedaps
  dsimp only
  split
  · simp [ERROR, SUCCESS]
  · split
    · simp [ERROR, SUCCESS]
    · split
      · simp [ERROR, SUCCESS]
      all_goals
        rw [runStages_eq_runPipe]
        exact ⟨runPipe_dropLast_ok env env.cwd _, runPipe_error_of_fail env env.cwd _,
          fun h => runPipe_success_all_ok env env.cwd _ h⟩

/-- Environment in which every file exists, every directory is
writable, and every spawned command exits with status word 256
(derived exit code 1). -/
def runEnvFail : RunEnv :=
  { cwd := "/work", isfile := fun _ => true, writable := fun _ => true,
    xmldirOf := fun _ => "/scenes", status := fun _ => 256 }

/-- Witness for C2: a pre-collection scene whose first stage (`lndpm`)
fails makes the whole run return `ERROR`. -/
theorem runLedaps_first_failure_aborts_witness :
    (runLedaps runEnvFail "LT5scene.xml" "True").ret = ERROR :=
  (runLedaps_first_failure_aborts runEnvFail "LT5scene.xml" "True").2.1
    ⟨lndpmCmd "LT5scene.xml" "True", by decide, by decide⟩

lemma strTake_of_strTake_four (b w : String) (h : strTake b 4 = w) :
    strTake b 3 = String.mk (w.data.take 3) := by
  have hd : b.data.take 4 = w.data := by
    have hc := congrArg String.data h
    simpa [strTake] using hc
  unfold strTake
  rw [← hd, List.take_take]
  norm_num

/-- C3: the scene is classified pre-collection exactly when the first
three characters of the base filename are `LT4`, `LT5` or `LE7`,
collection exactly when the first four are `LT04`, `LT05` or `LE07`,
and for any other base filename `runLedaps` returns `ERROR` without
invoking any external stage. -/
theorem runLedaps_scene_classification (env : RunEnv) (xmlfile psr b : String) :
    (classifyScene b = SceneClass.preCollection ↔
       (strTake b 3 = "LT4" ∨ strTake b 3 = "LT5" ∨ strTake b 3 = "LE7")) ∧
    (classifyScene b = SceneClass.collection ↔
       (strTake b 4 = "LT04" ∨ strTake b 4 = "LT05" ∨ strTake b 4 = "LE07")) ∧
    (classifyScene (basename xmlfile) = SceneClass.unrecognized →
       (runLedaps env xmlfile psr).ret = ERROR ∧ (runLedaps env xmlfile psr).cmds = []) := by
  refine ⟨?_, ?_, ?_⟩
  · by_cases h3 : strTake b 3 ∈ oldNames
    · have hcl : classifyScene b = SceneClass.preCollection := by
        unfold classifyScene
        simp [h3]
      rw [hcl]
      simp only [true_iff]
      simpa [oldNames] using h3
    · have hne : classifyScene b ≠ SceneClass.preCollection := by
        unfold classifyScene
        simp only [h3, if_false]
        split <;> simp
      constructor
      · intro h
        exact absurd h hne
      · intro hr
        exact absurd (by simpa [oldNames] using hr) h3
  · by_cases h3 : strTake b 3 ∈ oldNames
    · have hcl : classifyScene b = SceneClass.preCollection := by
        unfold classifyScene
        simp [h3]
      rw [hcl]
      constructor
      · intro h
        exact absurd h (by simp)
      · rintro (h | h | h) <;>
          · have h3x := strTake_of_strTake_four b _ h
            rw [h3x] at h3
            exact absurd h3 (by decide)
    · by_cases h4 : strTake b 4 ∈ collectionNames
      · have hcl : classifyScene b = SceneClass.collection := by
          unfold classifyScene
          simp [h3, h4]
        rw [hcl]
        simp only [true_iff]
        simpa [collectionNames] using h4
      · have hcl : classifyScene b = SceneClass.unrecognized := by
          unfold classifyScene
          simp [h3, h4]
        rw [hcl]
        constructor
        · intro h
          exact absurd h (by simp)
        · intro hr
          exact absurd (by simpa [collectionNames] using hr) h4
  · intro hun
    unfold runLedaps
    dsimp only
    split
    · exact ⟨rfl, rfl⟩
    · split
      · exact ⟨rfl, rfl⟩
      · split
        · exact ⟨rfl, rfl⟩
        · next h => rw [hun] at h; exact absurd h (by simp)
        · next h => rw [hun] at h; exact absurd h (by simp)

/-- Environment in which every file exists, every directory is
writable, and every spawned command succeeds (status word 0). -/
def runEnvOk : RunEnv :=
  { cwd := "/work", isfile := fun _ => true, writable := fun _ => true,
    xmldirOf := fun _ => "/scenes", status := fun _ => 0 }

/-- Witness for C3: the unrecognized base filename `XX1_foo.xml` makes
`runLedaps` fail without invoking any stage. -/
theorem runLedaps_scene_classification_witness :
    (runLedaps runEnvOk "XX1_foo.xml" "True").ret = ERROR ∧
    (runLedaps runEnvOk "XX1_foo.xml" "True").cmds = [] :=
  (runLedaps_scene_classification runEnvOk "XX1_foo.xml" "True" "XX1_foo.xml").2.2
    (by decide)

/-! ### Shell word splitting

The stage command strings are handed to the shell, which splits them on
spaces into the invoked program's argument vector, dropping empty
fields.  `shellWords` models that splitting; it is the observation
under which "flag omitted entirely" and "flag passed as an empty
argument" differ. -/

/-- Split a character list on spaces into maximal nonempty words;
`acc` holds the reversed characters of the word being read. -/
def splitWordsAux : List Char → List Char → List String
  | [], acc => if acc = [] then [] else [String.mk acc.reverse]
  | c :: rest, acc =>
      if c = ' ' then
        (if acc = [] then [] else [String.mk acc.reverse]) ++ splitWordsAux rest []
      else splitWordsAux rest (c :: acc)

/-- The argument words of a command string, as the shell sees them. -/
def shellWords (s : String) : List String := splitWordsAux s.data []

/-- The program token of a command string: its first shell word. -/
def progOf (c : String) : String := (shellWords c).headD ""

lemma splitWordsAux_append_space (l m acc) :
    splitWordsAux (l ++ ' ' :: m) acc = splitWordsAux l acc ++ splitWordsAux m [] := by
  induction l generalizing acc with
  | nil => simp [splitWordsAux]
  | cons c r ih =>
      by_cases hc : c = ' ' <;> simp [splitWordsAux, hc, ih]

lemma shellWords_append_sep (s t : String) :
    shellWords (s ++ " " ++ t) = shellWords s ++ shellWords t := by
  have hsp : (" " : String).data = [' '] := rfl
  have hd : (s ++ " " ++ t).data = s.data ++ ' ' :: t.data := by
    simp [String.data_append, hsp]
  rw [shellWords, hd, splitWordsAux_append_space]
  rfl

lemma mk_reverse_ne_empty (acc : List Char) (ha : acc ≠ []) :
    String.mk acc.reverse ≠ "" := by
  intro h
  apply ha
  have hd := congrArg String.data h
  simpa using hd

lemma ne_empty_of_mem_flush {acc : List Char} {w : String}
    (hw : w ∈ (if acc = [] then ([] : List String) else [String.mk acc.reverse])) :
    w ≠ "" := by
  by_cases ha : acc = []
  · simp [ha] at hw
  · simp only [ha, if_false, List.mem_singleton] at hw
    subst hw
    exact mk_reverse_ne_empty acc ha

lemma ne_empty_of_mem_splitWordsAux :
    ∀ (l acc : List Char) (w : String), w ∈ splitWordsAux l acc → w ≠ "" := by
  intro l
  induction l with
  | nil => exact fun acc w hw => ne_empty_of_mem_flush hw
  | cons c r ih =>
      intro acc w hw
      rw [splitWordsAux] at hw
      by_cases hc : c = ' '
      · rw [if_pos hc] at hw
        rcases List.mem_append.mp hw with hw | hw
        · exact ne_empty_of_mem_flush hw
        · exact ih [] w hw
      · rw [if_neg hc] at hw
        exact ih (c :: acc) w hw

lemma ne_empty_mem_shellWords (s : String) : "" ∉ shellWords s :=
  fun h => ne_empty_of_mem_splitWordsAux s.data [] "" h rfl

lemma str_assoc (a b c : String) : (a ++ b) ++ c = a ++ (b ++ c) :=
  String.ext (by simp [String.data_append])

lemma angleCmd_decomp (b : String) :
    angleCmd b = "create_landsat_angle_bands" ++ " " ++ ("--xml " ++ b) := by
  apply String.ext
  simp only [angleCmd, String.data_append]
  simp [List.append_assoc]

lemma lndpmCmd_decomp (b psr : String) :
    lndpmCmd b psr = "lndpm" ++ " " ++ ("--xml " ++ b ++ " " ++ process_sr_opt_str psr) := by
  apply String.ext
  simp only [lndpmCmd, String.data_append]
  simp [List.append_assoc]

lemma lndcalCmd_decomp (x p : String) :
    lndcalCmd x p = ("lndcal --pfile lndcal." ++ x ++ ".txt") ++ " " ++ p := by
  apply String.ext
  simp only [lndcalCmd, String.data_append]
  simp [List.append_assoc]

lemma lndsrCmd_decomp (x p : String) :
    lndsrCmd x p = ("lndsr --pfile lndsr." ++ x ++ ".txt") ++ " " ++ p := by
  apply String.ext
  simp only [lndsrCmd, String.data_append]
  simp [List.append_assoc]

lemma lndsrCmd_prog_decomp (x p : String) :
    lndsrCmd x p = "lndsr" ++ " " ++ ("--pfile lndsr." ++ x ++ ".txt " ++ p) := by
  apply String.ext
  simp only [lndsrCmd, String.data_append]
  simp [List.append_assoc]

lemma lndcalCmd_prog_decomp (x p : String) :
    lndcalCmd x p = "lndcal" ++ " " ++ ("--pfile lndcal." ++ x ++ ".txt " ++ p) := by
  apply String.ext
  simp only [lndcalCmd, String.data_append]
  simp [List.append_assoc]

lemma lndsrbmCmd_decomp (x : String) :
    lndsrbmCmd x = "lndsrbm.py" ++ " " ++ ("-f lndsr." ++ x ++ ".txt") := by
  apply String.ext
  simp only [lndsrbmCmd, String.data_append]
  simp [List.append_assoc]

lemma progOf_angleCmd (b : String) : progOf (angleCmd b) = "create_landsat_angle_bands" := by
  rw [progOf, angleCmd_decomp, shellWords_append_sep,
      show shellWords "create_landsat_angle_bands" = ["create_landsat_angle_bands"]
        from by decide]
  rfl

lemma progOf_lndpmCmd (b psr : String) : progOf (lndpmCmd b psr) = "lndpm" := by
  rw [progOf, lndpmCmd_decomp, shellWords_append_sep,
      show shellWords "lndpm" = ["lndpm"] from by decide]
  rfl

lemma progOf_lndcalCmd (x p : String) : progOf (lndcalCmd x p) = "lndcal" := by
  rw [progOf, lndcalCmd_prog_decomp, shellWords_append_sep,
      show shellWords "lndcal" = ["lndcal"] from by decide]
  rfl

lemma progOf_lndsrCmd (x p : String) : progOf (lndsrCmd x p) = "lndsr" := by
  rw [progOf, lndsrCmd_prog_decomp, shellWords_append_sep,
      show shellWords "lndsr" = ["lndsr"] from by decide]
  rfl

lemma progOf_lndsrbmCmd (x : String) : progOf (lndsrbmCmd x) = "lndsrbm.py" := by
  rw [progOf, lndsrbmCmd_decomp, shellWords_append_sep,
      show shellWords "lndsrbm.py" = ["lndsrbm.py"] from by decide]
  rfl

lemma angleCmd_ne_lndpmCmd (a b p : String) : angleCmd a ≠ lndpmCmd b p := by
  intro h
  have hp := congrArg progOf h
  rw [progOf_angleCmd, progOf_lndpmCmd] at hp
  exact absurd hp (by decide)

lemma angleCmd_ne_lndcalCmd (a x p : String) : angleCmd a ≠ lndcalCmd x p := by
  intro h
  have hp := congrArg progOf h
  rw [progOf_angleCmd, progOf_lndcalCmd] at hp
  exact absurd hp (by decide)

lemma angleCmd_ne_lndsrCmd (a x p : String) : angleCmd a ≠ lndsrCmd x p := by
  intro h
  have hp := congrArg progOf h
  rw [progOf_angleCmd, progOf_lndsrCmd] at hp
  exact absurd hp (by decide)

lemma angleCmd_ne_lndsrbmCmd (a x : String) : angleCmd a ≠ lndsrbmCmd x := by
  intro h
  have hp := congrArg progOf h
  rw [progOf_angleCmd, progOf_lndsrbmCmd] at hp
  exact absurd hp (by decide)

lemma lndsrbmCmd_ne_angleCmd (x a : String) : lndsrbmCmd x ≠ angleCmd a :=
  fun h => angleCmd_ne_lndsrbmCmd a x h.symm

lemma lndsrbmCmd_ne_lndpmCmd (x b p : String) : lndsrbmCmd x ≠ lndpmCmd b p := by
  intro h
  have hp := congrArg progOf h
  rw [progOf_lndsrbmCmd, progOf_lndpmCmd] at hp
  exact absurd hp (by decide)

lemma lndsrbmCmd_ne_lndcalCmd (x y p : String) : lndsrbmCmd x ≠ lndcalCmd y p := by
  intro h
  have hp := congrArg progOf h
  rw [progOf_lndsrbmCmd, progOf_lndcalCmd] at hp
  exact absurd hp (by decide)

lemma lndsrbmCmd_ne_lndsrCmd (x y p : String) : lndsrbmCmd x ≠ lndsrCmd y p := by
  intro h
  have hp := congrArg progOf h
  rw [progOf_lndsrbmCmd, progOf_lndsrCmd] at hp
  exact absurd hp (by decide)

lemma lndsrCmd_ne_angleCmd (x p a : String) : lndsrCmd x p ≠ angleCmd a :=
  fun h => angleCmd_ne_lndsrCmd a x p h.symm

lemma lndsrCmd_ne_lndpmCmd (x p b q : String) : lndsrCmd x p ≠ lndpmCmd b q := by
  intro h
  have hp := congrArg progOf h
  rw [progOf_lndsrCmd, progOf_lndpmCmd] at hp
  exact absurd hp (by decide)

lemma lndsrCmd_ne_lndcalCmd (x p y q : String) : lndsrCmd x p ≠ lndcalCmd y q := by
  intro h
  have hp := congrArg progOf h
  rw [progOf_lndsrCmd, progOf_lndcalCmd] at hp
  exact absurd hp (by decide)

lemma angle_mem_stagePlan (pc : Bool) (psr b x : String) :
    angleCmd b ∈ stagePlan pc psr b x ↔ pc = true := by
  cases pc <;> by_cases hsr : psr = "True" <;>
    simp [stagePlan, hsr, angleCmd_ne_lndpmCmd, angleCmd_ne_lndcalCmd,
      angleCmd_ne_lndsrCmd, angleCmd_ne_lndsrbmCmd]

lemma lndsrbm_mem_stagePlan (pc : Bool) (psr b x : String) :
    lndsrbmCmd x ∈ stagePlan pc psr b x ↔ (psr = "True" ∧ pc = false) := by
  cases pc <;> by_cases hsr : psr = "True" <;>
    simp [stagePlan, hsr, lndsrbmCmd_ne_angleCmd, lndsrbmCmd_ne_lndpmCmd,
      lndsrbmCmd_ne_lndcalCmd, lndsrbmCmd_ne_lndsrCmd]

lemma lndsr_mem_stagePlan (pc : Bool) (psr b x : String) :
    lndsrCmd x (process_collection_opt_str pc) ∈ stagePlan pc psr b x ↔ psr = "True" := by
  cases pc <;> by_cases hsr : psr = "True" <;>
    simp [stagePlan, hsr, lndsrCmd_ne_angleCmd, lndsrCmd_ne_lndpmCmd,
      lndsrCmd_ne_lndcalCmd]

lemma lndpm_mem_stagePlan (pc : Bool) (psr b x : String) :
    lndpmCmd b psr ∈ stagePlan pc psr b x := by
  cases pc <;> simp [stagePlan]

lemma lndcal_mem_stagePlan (pc : Bool) (psr b x : String) :
    lndcalCmd x (process_collection_opt_str pc) ∈ stagePlan pc psr b x := by
  cases pc <;> simp [stagePlan]

lemma runLedaps_eq_pipe_pre (env : RunEnv) (xmlfile psr : String)
    (hfile : env.isfile xmlfile = true)
    (hw : env.writable (env.xmldirOf xmlfile) = true)
    (hc : classifyScene (basename xmlfile) = SceneClass.preCollection) :
    runLedaps env xmlfile psr =
      runPipe env env.cwd
        (stagePlan false psr (basename xmlfile) (stripXmlSuffix (basename xmlfile))) := by
  unfold runLedaps
  dsimp only
  rw [if_neg (by simp [hfile]), if_neg (by simp [hw]), hc]
  exact runStages_eq_runPipe env (basename xmlfile) (stripXmlSuffix (basename xmlfile))
    env.cwd false psr

lemma runLedaps_eq_pipe_collection (env : RunEnv) (xmlfile psr : String)
    (hfile : env.isfile xmlfile = true)
    (hw : env.writable (env.xmldirOf xmlfile) = true)
    (hc : classifyScene (basename xmlfile) = SceneClass.collection) :
    runLedaps env xmlfile psr =
      runPipe env env.cwd
        (stagePlan true psr (basename xmlfile) (stripXmlSuffix (basename xmlfile))) := by
  unfold runLedaps
  dsimp only
  rw [if_neg (by simp [hfile]), if_neg (by simp [hw]), hc]
  exact runStages_eq_runPipe env (basename xmlfile) (stripXmlSuffix (basename xmlfile))
    env.cwd true psr

lemma runLedaps_ok_pre (env : RunEnv) (xmlfile psr : String)
    (hfile : env.isfile xmlfile = true)
    (hw : env.writable (env.xmldirOf xmlfile) = true)
    (hc : classifyScene (basename xmlfile) = SceneClass.preCollection)
    (hok : ∀ c ∈ (runLedaps env xmlfile psr).cmds, exitCode (env.status c) = 0) :
    runLedaps env xmlfile psr =
      { ret := SUCCESS, cwd := env.cwd,
        cmds := stagePlan false psr (basename xmlfile) (stripXmlSuffix (basename xmlfile)) } := by
  rw [runLedaps_eq_pipe_pre env xmlfile psr hfile hw hc] at hok ⊢
  exact runPipe_invoked_ok env env.cwd _ hok

lemma runLedaps_ok_collection (env : RunEnv) (xmlfile psr : String)
    (hfile : env.isfile xmlfile = true)
    (hw : env.writable (env.xmldirOf xmlfile) = true)
    (hc : classifyScene (basename xmlfile) = SceneClass.collection)
    (hok : ∀ c ∈ (runLedaps env xmlfile psr).cmds, exitCode (env.status c) = 0) :
    runLedaps env xmlfile psr =
      { ret := SUCCESS, cwd := env.cwd,
        cmds := stagePlan true psr (basename xmlfile) (stripXmlSuffix (basename xmlfile)) } := by
  rw [runLedaps_eq_pipe_collection env xmlfile psr hfile hw hc] at hok ⊢
  exact runPipe_invoked_ok env env.cwd _ hok

/-- C4: SR processing is requested exactly when `process_sr` equals the
literal string `"True"` (case-sensitive): `lndpm` receives
`--process_sr=true` exactly in that case and `--process_sr=false` for
every other string, and the `lndsr` stage is invoked exactly in that
case (in a run whose invoked stages all succeed). -/
theorem runLedaps_process_sr_literal (env : RunEnv) (xmlfile psr : String)
    (hfile : env.isfile xmlfile = true)
    (hw : env.writable (env.xmldirOf xmlfile) = true)
    (hrec : classifyScene (basename xmlfile) ≠ SceneClass.unrecognized)
    (hok : ∀ c ∈ (runLedaps env xmlfile psr).cmds, exitCode (env.status c) = 0) :
    (process_sr_opt_str psr = "--process_sr=true" ↔ psr = "True") ∧
    (process_sr_opt_str psr = "--process_sr=false" ↔ psr ≠ "True") ∧
    lndpmCmd (basename xmlfile) psr ∈ (runLedaps env xmlfile psr).cmds ∧
    ((∃ p, lndsrCmd (stripXmlSuffix (basename xmlfile)) p ∈
        (runLedaps env xmlfile psr).cmds) ↔ psr = "True") := by
  refine ⟨?_, ?_, ?_, ?_⟩
  · by_cases h : psr = "True" <;> simp [process_sr_opt_str, h]
  · by_cases h : psr = "True" <;> simp [process_sr_opt_str, h]
  · cases hcl : classifyScene (basename xmlfile) with
    | preCollection =>
        rw [runLedaps_ok_pre env xmlfile psr hfile hw hcl hok]
        exact lndpm_mem_stagePlan ..
    | collection =>
        rw [runLedaps_ok_collection env xmlfile psr hfile hw hcl hok]
        exact lndpm_mem_stagePlan ..
    | unrecognized => exact absurd hcl hrec
  · cases hcl : classifyScene (basename xmlfile) with
    | preCollection =>
        rw [runLedaps_ok_pre env xmlfile psr hfile hw hcl hok]
        constructor
        · rintro ⟨p, hp⟩
          by_contra hsr
          simp [stagePlan, hsr, lndsrCmd_ne_lndpmCmd, lndsrCmd_ne_lndcalCmd] at hp
        · intro hsr
          exact ⟨process_collection_opt_str false,
            (lndsr_mem_stagePlan false psr _ _).mpr hsr⟩
    | collection =>
        rw [runLedaps_ok_collection env xmlfile psr hfile hw hcl hok]
        constructor
        · rintro ⟨p, hp⟩
          by_contra hsr
          simp [stagePlan, hsr, lndsrCmd_ne_angleCmd, lndsrCmd_ne_lndpmCmd,
            lndsrCmd_ne_lndcalCmd] at hp
        · intro hsr
          exact ⟨process_collection_opt_str true,
            (lndsr_mem_stagePlan true psr _ _).mpr hsr⟩
    | unrecognized => exact absurd hcl hrec

/-- Witness for C4: with every stage succeeding, the pre-collection
scene `LT5scene.xml` with `process_sr = "True"` does invoke `lndsr`. -/
theorem runLedaps_process_sr_literal_witness :
    ∃ p, lndsrCmd (stripXmlSuffix (basename "LT5scene.xml")) p ∈
      (runLedaps runEnvOk "LT5scene.xml" "True").cmds :=
  ((runLedaps_process_sr_literal runEnvOk "LT5scene.xml" "True" rfl rfl
      (by decide) (fun c _ => by simp [runEnvOk, exitCode])).2.2.2).mpr rfl

/-- C5: in a run whose invoked stages all succeed, a pre-collection
scene with SR requested runs exactly `lndpm`, `lndcal`, `lndsr`,
`lndsrbm` (angle-band generation skipped), a collection scene without
SR runs exactly `create_landsat_angle_bands`, `lndpm`, `lndcal`; the
angle-band stage runs exactly for collection scenes and the `lndsrbm`
stage exactly when SR is requested and the scene is not a collection
scene. -/
theorem runLedaps_stage_matrix (env : RunEnv) (xmlfile psr : String)
    (hfile : env.isfile xmlfile = true)
    (hw : env.writable (env.xmldirOf xmlfile) = true)
    (hok : ∀ c ∈ (runLedaps env xmlfile psr).cmds, exitCode (env.status c) = 0) :
    (classifyScene (basename xmlfile) = SceneClass.preCollection → psr = "True" →
       (runLedaps env xmlfile psr).cmds =
         [lndpmCmd (basename xmlfile) psr,
          lndcalCmd (stripXmlSuffix (basename xmlfile)) (process_collection_opt_str false),
          lndsrCmd (stripXmlSuffix (basename xmlfile)) (process_collection_opt_str false),
          lndsrbmCmd (stripXmlSuffix (basename xmlfile))]) ∧
    (classifyScene (basename xmlfile) = SceneClass.collection → psr ≠ "True" →
       (runLedaps env xmlfile psr).cmds =
         [angleCmd (basename xmlfile),
          lndpmCmd (basename xmlfile) psr,
          lndcalCmd (stripXmlSuffix (basename xmlfile)) (process_collection_opt_str true)]) ∧
    (classifyScene (basename xmlfile) = SceneClass.preCollection →
       angleCmd (basename xmlfile) ∉ (runLedaps env xmlfile psr).cmds ∧
       (lndsrbmCmd (stripXmlSuffix (basename xmlfile)) ∈ (runLedaps env xmlfile psr).cmds ↔
          psr = "True")) ∧
    (classifyScene (basename xmlfile) = SceneClass.collection →
       angleCmd (basename xmlfile) ∈ (runLedaps env xmlfile psr).cmds ∧
       lndsrbmCmd (stripXmlSuffix (basename xmlfile)) ∉ (runLedaps env xmlfile psr).cmds) := by
  refine ⟨?_, ?_, ?_, ?_⟩
  · intro hcl hsr
    rw [runLedaps_ok_pre env xmlfile psr hfile hw hcl hok]
    simp [stagePlan, hsr]
  · intro hcl hsr
    rw [runLedaps_ok_collection env xmlfile psr hfile hw hcl hok]
    simp [stagePlan, hsr]
  · intro hcl
    rw [runLedaps_ok_pre env xmlfile psr hfile hw hcl hok]
    constructor
    · intro hmem
      exact absurd ((angle_mem_stagePlan false psr _ _).mp hmem) (by simp)
    · rw [lndsrbm_mem_stagePlan false psr _ _]
      simp
  · intro hcl
    rw [runLedaps_ok_collection env xmlfile psr hfile hw hcl hok]
    refine ⟨(angle_mem_stagePlan true psr _ _).mpr rfl, ?_⟩
    intro hmem
    exact absurd ((lndsrbm_mem_stagePlan true psr _ _).mp hmem) (by simp)

/-- Witness for C5: the pre-collection scene `LT5scene.xml` with SR
requested and all stages succeeding runs exactly the four stages
`lndpm`, `lndcal`, `lndsr`, `lndsrbm`. -/
theorem runLedaps_stage_matrix_witness :
    (runLedaps runEnvOk "LT5scene.xml" "True").cmds =
      [lndpmCmd (basename "LT5scene.xml") "True",
       lndcalCmd (stripXmlSuffix (basename "LT5scene.xml")) (process_collection_opt_str false),
       lndsrCmd (stripXmlSuffix (basename "LT5scene.xml")) (process_collection_opt_str false),
       lndsrbmCmd (stripXmlSuffix (basename "LT5scene.xml"))] :=
  (runLedaps_stage_matrix runEnvOk "LT5scene.xml" "True" rfl rfl
      (fun c _ => by simp [runEnvOk, exitCode])).1 (by decide) rfl

/-- C8: for collection scenes the `lndcal` and `lndsr` invocations carry
the fixed token `--process_collection` appended as a final shell word
to their arguments; for pre-collection scenes the argument words are
exactly those of the flag-less command — the token is omitted entirely
and no empty argument is passed. -/
theorem runLedaps_collection_flag (env : RunEnv) (xmlfile psr x : String)
    (hfile : env.isfile xmlfile = true)
    (hw : env.writable (env.xmldirOf xmlfile) = true)
    (hok : ∀ c ∈ (runLedaps env xmlfile psr).cmds, exitCode (env.status c) = 0) :
    (shellWords (lndcalCmd x (process_collection_opt_str true)) =
       shellWords ("lndcal --pfile lndcal." ++ x ++ ".txt") ++ ["--process_collection"]) ∧
    (shellWords (lndsrCmd x (process_collection_opt_str true)) =
       shellWords ("lndsr --pfile lndsr." ++ x ++ ".txt") ++ ["--process_collection"]) ∧
    (shellWords (lndcalCmd x (process_collection_opt_str false)) =
       shellWords ("lndcal --pfile lndcal." ++ x ++ ".txt")) ∧
    (shellWords (lndsrCmd x (process_collection_opt_str false)) =
       shellWords ("lndsr --pfile lndsr." ++ x ++ ".txt")) ∧
    "" ∉ shellWords (lndcalCmd x (process_collection_opt_str false)) ∧
    "" ∉ shellWords (lndsrCmd x (process_collection_opt_str false)) ∧
    (classifyScene (basename xmlfile) = SceneClass.collection →
       lndcalCmd (stripXmlSuffix (basename xmlfile)) (process_collection_opt_str true) ∈
         (runLedaps env xmlfile psr).cmds) ∧
    (classifyScene (basename xmlfile) = SceneClass.preCollection →
       lndcalCmd (stripXmlSuffix (basename xmlfile)) (process_collection_opt_str false) ∈
         (runLedaps env xmlfile psr).cmds) := by
  refine ⟨?_, ?_, ?_, ?_, ?_, ?_, ?_, ?_⟩
  · rw [lndcalCmd_decomp, shellWords_append_sep,
      show process_collection_opt_str true = "--process_collection" from rfl,
      show shellWords "--process_collection" = ["--process_collection"] from by decide]
  · rw [lndsrCmd_decomp, shellWords_append_sep,
      show process_collection_opt_str true = "--process_collection" from rfl,
      show shellWords "--process_collection" = ["--process_collection"] from by decide]
  · rw [lndcalCmd_decomp, shellWords_append_sep,
      show process_collection_opt_str false = "" from rfl,
      show shellWords "" = [] from by decide, List.append_nil]
  · rw [lndsrCmd_decomp, shellWords_append_sep,
      show process_collection_opt_str false = "" from rfl,
      show shellWords "" = [] from by decide, List.append_nil]
  · exact ne_empty_mem_shellWords _
  · exact ne_empty_mem_shellWords _
  · intro hcl
    rw [runLedaps_ok_collection env xmlfile psr hfile hw hcl hok]
    exact lndcal_mem_stagePlan ..
  · intro hcl
    rw [runLedaps_ok_pre env xmlfile psr hfile hw hcl hok]
    exact lndcal_mem_stagePlan ..

/-- Witness for C8: the collection scene `LT04_scene.xml` gets
`--process_collection` on its `lndcal` invocation. -/
theorem runLedaps_collection_flag_witness :
    lndcalCmd (stripXmlSuffix (basename "LT04_scene.xml")) (process_collection_opt_str true) ∈
      (runLedaps runEnvOk "LT04_scene.xml" "True").cmds :=
  ((runLedaps_collection_flag runEnvOk "LT04_scene.xml" "True" "s" rfl rfl
      (fun c _ => by simp [runEnvOk, exitCode])).2.2.2.2.2.2.1) (by decide)

end DoLedaps
